import Mathlib

/-!
Shallow embedding of `skeeter_deleter.py` (Gorcenski/skeeter-deleter).

Conventions of the embedding:
* Timestamps are integers (seconds). `PostQualifier.created_at` holds the
  outcome of `dateutil.parser.parse` on the raw `record.created_at` string:
  `some t` when the string parses to time `t`, `none` when it is malformed
  (dateutil would raise). `timedelta(days=d)` is `d * 86400` seconds.
* Python substring tests (`a in b`) are `strIn`, list membership of strings
  uses `List.contains`.
* Functions that can raise are embedded in `Except`; the exception kinds the
  claims distinguish are `ErrKind.http` (`httpx.HTTPStatusError`) and
  `ErrKind.other` (any other `Exception`).
-/

/-- Python `needle in hay` on strings: substring containment. -/
def strIn (needle hay : String) : Bool :=
  decide (needle.data <:+: hay.data)

/-- Seconds in a day; `timedelta(days=d)` for `is_stale`. -/
def daysToSeconds (d : Nat) : Int :=
  (d : Int) * 86400

/-- Exception kinds distinguished by the source's except clauses. -/
inductive ErrKind where
  | http
  | other
deriving Repr, DecidableEq

/-- Error raised when `dateutil.parser.parse` fails on a timestamp. -/
inductive TsErr where
  | malformedTimestamp
deriving Repr, DecidableEq

/-- A like record from the CAR archive: the block's `subject` field, with
its `uri` and `cid` entries. -/
structure LikeRecord where
  subject_uri : String
  subject_cid : String
deriving Repr, DecidableEq

/-- The fields of `models.AppBskyFeedDefs.PostView` that the qualifier logic
reads.  `created_at` is the parse outcome of `record.created_at` (see module
docstring); `embed_external_uri` is `some u` when the post has an embed with
an `external` attribute whose uri is `u`, and `none` when `hasattr(self.embed,
"external")` is false. -/
structure PostQualifier where
  uri : String
  repost_count : Nat
  created_at : Option Int
  embed_external_uri : Option String
deriving Repr, DecidableEq

namespace PostQualifier

/-- Embeds `PostQualifier.is_viral`: `False` when the threshold is `0`, otherwise
`repost_count >= viral_threshold`. -/
def is_viral (viral_threshold : Nat) (post : PostQualifier) : Bool :=
  if viral_threshold = 0 then false
  else decide (post.repost_count ≥ viral_threshold)

/-- Embeds `PostQualifier.is_stale`: `False` when the threshold is `0` (before any
parsing happens); otherwise parse `record.created_at` — raising on a
malformed timestamp — and compare with `now - timedelta(days=stale_threshold)`. -/
def is_stale (stale_threshold : Nat) (now : Int) (post : PostQualifier) :
    Except TsErr Bool :=
  if stale_threshold = 0 then .ok false
  else
    match post.created_at with
    | none => .error .malformedTimestamp
    | some t => .ok (decide (t ≤ now - daysToSeconds stale_threshold))

/-- Embeds `PostQualifier.is_protected_domain`: the post has an embed with an
`external` attribute and some configured domain is a substring of its uri. -/
def is_protected_domain (domains_to_protect : List String)
    (post : PostQualifier) : Bool :=
  match post.embed_external_uri with
  | none => false
  | some u => domains_to_protect.any (fun d => strIn d u)

/-- Embeds `PostQualifier.is_self_liked`: the post's uri appears among the subject
uris of the self-like records extracted from the archive. -/
def is_self_liked (self_likes : List LikeRecord) (post : PostQualifier) :
    Bool :=
  (self_likes.map (fun l => l.subject_uri)).contains post.uri

/-- Embeds `PostQualifier.to_delete`: Python evaluates
`(is_viral or is_stale) and not is_protected_domain and not is_self_liked`;
`or` short-circuits, so `is_stale` (the only raising call) only runs when
`is_viral` is false. -/
def to_delete (viral_threshold stale_threshold : Nat)
    (domains_to_protect : List String) (now : Int)
    (self_likes : List LikeRecord) (post : PostQualifier) :
    Except TsErr Bool :=
  match (if post.is_viral viral_threshold then .ok true
         else post.is_stale stale_threshold now : Except TsErr Bool) with
  | .error e => .error e
  | .ok trigger =>
    if trigger && !post.is_protected_domain domains_to_protect &&
        !post.is_self_liked self_likes then
      .ok true
    else
      .ok false

/-- Embeds `PostQualifier.to_remove`: returns `post.is_stale(stale_threshold, now)`
and nothing else. -/
def to_remove (stale_threshold : Nat) (now : Int) (post : PostQualifier) :
    Except TsErr Bool :=
  post.is_stale stale_threshold now

end PostQualifier

/-- Boolean value of a successful `is_stale` call; used to state the spec's
formulas over total boolean predicates. -/
def is_staleB (stale_threshold : Nat) (now : Int) (post : PostQualifier) :
    Bool :=
  if stale_threshold = 0 then false
  else
    match post.created_at with
    | none => false
    | some t => decide (t ≤ now - daysToSeconds stale_threshold)

/-- The spec's formula for `should_delete`:
`(is_viral ∨ is_stale) ∧ ¬is_protected_domain ∧ ¬is_self_liked`. -/
def should_delete_spec (viral_threshold stale_threshold : Nat)
    (domains_to_protect : List String) (now : Int)
    (self_likes : List LikeRecord) (post : PostQualifier) : Bool :=
  (post.is_viral viral_threshold || is_staleB stale_threshold now post) &&
    !post.is_protected_domain domains_to_protect &&
    !post.is_self_liked self_likes

/-- The spec's formula for `should_unlike`: `is_stale ∧ ¬is_self_liked`. -/
def should_unlike_spec (stale_threshold : Nat) (now : Int)
    (self_likes : List LikeRecord) (post : PostQualifier) : Bool :=
  is_staleB stale_threshold now post && !post.is_self_liked self_likes

/-- Embeds `SkeeterDeleter.chunker`: `(seq[pos:pos + size] for pos in
range(0, len(seq), size))`.  The range has `⌈len/size⌉` positions
`0, size, 2*size, …`; each slice takes at most `size` elements.  (Python
raises `ValueError` on step `0`; the source only calls this with `25`.) -/
def chunker {α : Type} (seq : List α) (size : Nat) : List (List α) :=
  (List.range ((seq.length + size - 1) / size)).map
    (fun i => (seq.drop (i * size)).take size)

/-- Embeds the self-like extraction of `SkeeterDeleter.gather_likes`: from the like
records of the archive keep those whose subject uri contains the actor's
did and whose subject cid still resolves in the archive block store
(`resolves` models the truthiness of `archive.blocks.get`). -/
def selfLikesOf (did : String) (resolves : String → Bool)
    (likes : List LikeRecord) : List LikeRecord :=
  (likes.filter (fun x => strIn did x.subject_uri)).filter
    (fun x => resolves x.subject_cid)

/-- Embeds the other-like extraction of `SkeeterDeleter.gather_likes`: like records
whose subject uri does not contain the actor's did. -/
def otherLikesOf (did : String) (likes : List LikeRecord) :
    List LikeRecord :=
  likes.filter (fun x => !strIn did x.subject_uri)

/-- Python `list(filter(pred, posts))` when `pred` may raise: the whole
list is built before `extend`, so one raising element discards the batch. -/
def filterExcept {ε α : Type} (pred : α → Except ε Bool) :
    List α → Except ε (List α)
  | [] => .ok []
  | x :: xs =>
    match pred x with
    | .error e => .error e
    | .ok b =>
      match filterExcept pred xs with
      | .error e => .error e
      | .ok rest => .ok (if b then x :: rest else rest)

/-- One batch of `gather_likes`'s loop body: `client.get_posts` on the
batch's subject uris, then `filter(partial(to_remove, …))`; any
`httpx.HTTPStatusError` or other exception in the try block is logged and
the batch contributes nothing.  `getPosts` models the client call
(`.error` = the call raised). -/
def gatherLikesBatch (getPosts : List String → Except ErrKind (List PostQualifier))
    (stale_threshold : Nat) (now : Int) (batch : List LikeRecord) :
    List PostQualifier :=
  match getPosts (batch.map (fun x => x.subject_uri)) with
  | .error _ => []
  | .ok posts =>
    match filterExcept (PostQualifier.to_remove stale_threshold now) posts with
    | .error _ => []
    | .ok kept => kept

/-- Embeds `SkeeterDeleter.gather_likes`: the `to_unlike` list accumulated over
the 25-element chunks of the other-likes. -/
def gather_likes_to_unlike
    (getPosts : List String → Except ErrKind (List PostQualifier))
    (did : String) (stale_threshold : Nat) (now : Int)
    (likes : List LikeRecord) : List PostQualifier :=
  (chunker (otherLikesOf did likes) 25).foldr
    (fun batch acc => gatherLikesBatch getPosts stale_threshold now batch ++ acc)
    []

/-- One page returned by `client.get_author_feed`: the posts of the page
and the next cursor (`None` ⇒ stop). -/
structure FeedPage where
  posts : List PostQualifier
  cursor : Option String

/-- State of the `gather_posts_to_delete` while-loop: the held cursor,
the accumulated list, and whether `break` has run. -/
structure GatherState where
  cursor : Option String
  to_delete : List PostQualifier
  halted : Bool

/-- Initial state of `gather_posts_to_delete`: `cursor = None`,
`to_delete = []`, loop not yet exited. -/
def GatherState.init : GatherState :=
  { cursor := none, to_delete := [], halted := false }

/-- One iteration of the `gather_posts_to_delete` while-loop.  On a
successful response the page is filtered with `delete_test` and the cursor
is advanced to the page's cursor; on a raised exception the handler logs
and the cursor is left unchanged.  In both cases the trailing
`if cursor == None: break` runs. -/
def gatherStep (delete_test : PostQualifier → Bool)
    (resp : Except ErrKind FeedPage) (s : GatherState) : GatherState :=
  if s.halted then s
  else
    let s' :=
      match resp with
      | .ok page =>
        { s with cursor := page.cursor,
                 to_delete := s.to_delete ++ page.posts.filter delete_test }
      | .error _ => s
    if s'.cursor = none then { s' with halted := true } else s'

/-- Runs `gather_posts_to_delete` for `n` iterations against the response
oracle `responses` (iteration `i` consumes `responses i`; `.error` models a
raised exception during that request). -/
def gatherRun (delete_test : PostQualifier → Bool)
    (responses : Nat → Except ErrKind FeedPage) : Nat → GatherState
  | 0 => GatherState.init
  | n + 1 => gatherStep delete_test (responses n) (gatherRun delete_test responses n)

/-- A page of the likes pagination flow (spec §4.4 flow 1 / §6
`fetchOwnLikes`): items and the newly returned cursor. -/
structure LikesPage where
  items : List PostQualifier
  cursor : Option String

/-- Lexicographic order on cursor tokens, as strings of characters. -/
def lexLt : List Char → List Char → Bool
  | [], [] => false
  | [], _ :: _ => true
  | _ :: _, [] => false
  | a :: as, b :: bs =>
    if a < b then true else if b < a then false else lexLt as bs

/-- Modelled from the spec: the likes-pagination stop test.  The source
file declares and threads the `fixed_likes_cursor` configuration (CLI flag
`-c`, `SkeeterDeleter.__init__`) but the cursor-driven likes loop that
consumes it is absent from this revision (likes are read from the archive
instead), so the loop is modelled from spec §4.4: stop when the next
cursor is empty/null, or when a floor cursor is configured and the newly
returned cursor compares less than the floor. -/
def likesStop (floor : Option String) (cursor : Option String) : Bool :=
  match cursor with
  | none => true
  | some c =>
    match floor with
    | none => false
    | some f => lexLt c.data f.data

/-- State of the spec-modelled likes pagination loop: pages fetched so
far, held cursor, and whether the loop has stopped. -/
structure LikesState where
  pages : Nat
  cursor : Option String
  halted : Bool

/-- Modelled from the spec: one iteration of the likes pagination loop
(absent from this revision of the source, see `likesStop`): fetch the next
page, count it, adopt its cursor, and stop when `likesStop` trips. -/
def likesStep (floor : Option String) (page : LikesPage) (s : LikesState) :
    LikesState :=
  if s.halted then s
  else
    let s' := { s with pages := s.pages + 1, cursor := page.cursor }
    if likesStop floor page.cursor then { s' with halted := true } else s'

/-- Modelled from the spec: the likes pagination loop run for `n`
iterations against the page oracle `pages` (see `likesStop`). -/
def likesRun (floor : Option String) (pages : Nat → LikesPage) :
    Nat → LikesState
  | 0 => { pages := 0, cursor := none, halted := false }
  | n + 1 => likesStep floor (pages n) (likesRun floor pages n)

/-- Embeds `PostQualifier.delete_like`: outcome as a function of the primary
`client.delete_like(viewer.like)` result and the fallback
`client.delete_like(uri)` result (`none` = the call succeeded).  An
`httpx.HTTPStatusError` from the primary call triggers the fallback; a
non-HTTP exception from the fallback is re-raised (`raise e`), every other
failure is logged and swallowed. -/
def delete_like (primary fallback : Option ErrKind) : Except ErrKind Unit :=
  match primary with
  | none => .ok ()
  | some .other => .ok ()
  | some .http =>
    match fallback with
    | none => .ok ()
    | some .http => .ok ()
    | some .other => .error .other

/-- Embeds `PostQualifier.remove`: both the unrepost branch and the delete-post
branch catch `httpx.HTTPStatusError` and every other `Exception`, so the
call never raises whatever the client outcome `o` is. -/
def remove (o : Option ErrKind) : Except ErrKind Unit :=
  match o with
  | _ => .ok ()

/-- Embeds `SkeeterDeleter.batch_unlike_posts`: iterate `delete_like` over the
decision set; each item is given by the outcomes of its primary and
fallback calls.  Returns the number of items attempted and the exception
that escaped the loop, if any. -/
def batch_unlike_posts : List (Option ErrKind × Option ErrKind) →
    Nat × Option ErrKind
  | [] => (0, none)
  | o :: rest =>
    match delete_like o.1 o.2 with
    | .ok _ =>
      let r := batch_unlike_posts rest
      (r.1 + 1, r.2)
    | .error e => (1, some e)

/-- Embeds `SkeeterDeleter.batch_delete_posts`: iterate `remove` over the
decision set; returns the number of items attempted and the exception that
escaped the loop, if any. -/
def batch_delete_posts : List (Option ErrKind) → Nat × Option ErrKind
  | [] => (0, none)
  | o :: rest =>
    match remove o with
    | .ok _ =>
      let r := batch_delete_posts rest
      (r.1 + 1, r.2)
    | .error e => (1, some e)

/-! ## Helper lemmas -/

lemma chunker_nil {α : Type} (size : Nat) : chunker ([] : List α) size = [] := by
  cases size with
  | zero => simp [chunker]
  | succ n =>
    simp [chunker, Nat.div_eq_of_lt (Nat.lt_succ_of_le (Nat.le_refl n))]

lemma chunker_cons {α : Type} (seq : List α) (size : Nat) (h : 0 < size)
    (hne : seq ≠ []) :
    chunker seq size = seq.take size :: chunker (seq.drop size) size := by
  have hL : 1 ≤ seq.length := List.length_pos.mpr hne
  have hcount : (seq.length + size - 1) / size = (seq.length - 1) / size + 1 := by
    have heq : seq.length + size - 1 = (seq.length - 1) + size := by omega
    rw [heq, Nat.add_div_right _ h]
  have hcount' :
      ((seq.drop size).length + size - 1) / size = (seq.length - 1) / size := by
    rw [List.length_drop]
    rcases le_or_lt size seq.length with hle | hlt
    · have heq : seq.length - size + size - 1 = seq.length - 1 := by omega
      rw [heq]
    · have h1 : seq.length - size = 0 := by omega
      have h2 : 0 + size - 1 < size := by omega
      have h3 : seq.length - 1 < size := by omega
      rw [h1, Nat.div_eq_of_lt h2, Nat.div_eq_of_lt h3]
  unfold chunker
  rw [hcount, hcount', List.range_succ_eq_map, List.map_cons, List.map_map]
  congr 1
  · simp
  · apply List.map_congr_left
    intro i _
    simp only [Function.comp_apply, List.drop_drop, Nat.succ_mul, Nat.add_comm]

lemma chunker_flatten {α : Type} (size : Nat) (h : 0 < size) (seq : List α) :
    (chunker seq size).flatten = seq := by
  suffices H : ∀ n (seq : List α), seq.length ≤ n →
      (chunker seq size).flatten = seq from H seq.length seq le_rfl
  intro n
  induction n with
  | zero =>
    intro seq hs
    have : seq = [] := List.eq_nil_of_length_eq_zero (by omega)
    subst this
    simp [chunker_nil]
  | succ n ih =>
    intro seq hs
    cases seq with
    | nil => simp [chunker_nil]
    | cons a as =>
      rw [chunker_cons _ _ h (by simp), List.flatten_cons,
        ih _ (by rw [List.length_drop]; simp at hs ⊢; omega),
        List.take_append_drop]

lemma chunker_length_le {α : Type} (seq : List α) (size : Nat)
    (c : List α) (hc : c ∈ chunker seq size) : c.length ≤ size := by
  unfold chunker at hc
  obtain ⟨i, _, rfl⟩ := List.mem_map.mp hc
  exact le_trans (List.length_take_le _ _) le_rfl

lemma mem_of_mem_chunker {α : Type} (seq : List α) (size : Nat)
    (h : 0 < size) (c : List α) (hc : c ∈ chunker seq size)
    (x : α) (hx : x ∈ c) : x ∈ seq := by
  rw [← chunker_flatten size h seq]
  exact List.mem_flatten.mpr ⟨c, hc, hx⟩

lemma chunker_length {α : Type} (seq : List α) (size : Nat) :
    (chunker seq size).length = (seq.length + size - 1) / size := by
  simp [chunker]

lemma is_stale_eq_ok (stale_threshold : Nat) (now : Int)
    (post : PostQualifier) (t : Int) (hparse : post.created_at = some t) :
    post.is_stale stale_threshold now = .ok (is_staleB stale_threshold now post) := by
  unfold PostQualifier.is_stale is_staleB
  by_cases h0 : stale_threshold = 0
  · simp [h0]
  · simp [h0, hparse]

lemma is_stale_ok_val (stale_threshold : Nat) (now : Int)
    (post : PostQualifier) (b : Bool)
    (hok : post.is_stale stale_threshold now = .ok b) :
    b = is_staleB stale_threshold now post := by
  unfold PostQualifier.is_stale at hok
  unfold is_staleB
  by_cases h0 : stale_threshold = 0
  · simp [h0] at hok ⊢
    exact hok
  · simp [h0] at hok ⊢
    cases hca : post.created_at with
    | none => rw [hca] at hok; exact absurd hok (by simp)
    | some t => rw [hca] at hok; simp at hok; simp [hok]

lemma mem_selfLikesOf (did : String) (resolves : String → Bool)
    (likes : List LikeRecord) (l : LikeRecord)
    (hl : l ∈ selfLikesOf did resolves likes) :
    strIn did l.subject_uri = true := by
  unfold selfLikesOf at hl
  exact (List.mem_filter.mp (List.mem_filter.mp hl).1).2

lemma is_self_liked_of_not_in (did : String) (resolves : String → Bool)
    (likes : List LikeRecord) (post : PostQualifier)
    (h : strIn did post.uri = false) :
    post.is_self_liked (selfLikesOf did resolves likes) = false := by
  unfold PostQualifier.is_self_liked
  rw [Bool.eq_false_iff]
  intro hcon
  have hmem : post.uri ∈ (selfLikesOf did resolves likes).map
      (fun l => l.subject_uri) := by
    simpa using hcon
  obtain ⟨l, hl, hleq⟩ := List.mem_map.mp hmem
  have hdid := mem_selfLikesOf did resolves likes l hl
  rw [hleq] at hdid
  rw [h] at hdid
  exact Bool.noConfusion hdid

lemma filterExcept_subset {ε α : Type} (pred : α → Except ε Bool)
    (xs kept : List α) (hok : filterExcept pred xs = .ok kept) :
    ∀ p ∈ kept, p ∈ xs := by
  induction xs generalizing kept with
  | nil =>
    unfold filterExcept at hok
    cases hok
    intro p hp
    exact absurd hp (List.not_mem_nil p)
  | cons x xs ih =>
    unfold filterExcept at hok
    cases hpred : pred x with
    | error e => rw [hpred] at hok; exact absurd hok (by simp)
    | ok b =>
      rw [hpred] at hok
      cases hrec : filterExcept pred xs with
      | error e => rw [hrec] at hok; exact absurd hok (by simp)
      | ok rest =>
        rw [hrec] at hok
        simp at hok
        intro p hp
        rw [← hok] at hp
        cases b with
        | true =>
          simp at hp
          rcases hp with hp | hp
          · simp [hp]
          · exact List.mem_cons_of_mem x (ih rest hrec p hp)
        | false =>
          simp at hp
          exact List.mem_cons_of_mem x (ih rest hrec p hp)

lemma mem_gather_foldr (f : List LikeRecord → List PostQualifier)
    (batches : List (List LikeRecord)) (p : PostQualifier)
    (hp : p ∈ batches.foldr (fun batch acc => f batch ++ acc) []) :
    ∃ b ∈ batches, p ∈ f b := by
  induction batches with
  | nil => exact absurd hp (List.not_mem_nil p)
  | cons b bs ih =>
    simp only [List.foldr_cons, List.mem_append] at hp
    rcases hp with hp | hp
    · exact ⟨b, List.mem_cons_self b bs, hp⟩
    · obtain ⟨c, hc, hpc⟩ := ih hp
      exact ⟨c, List.mem_cons_of_mem b hc, hpc⟩

lemma gatherStep_halted (delete_test : PostQualifier → Bool)
    (resp : Except ErrKind FeedPage) (s : GatherState)
    (h : s.halted = true) : (gatherStep delete_test resp s).halted = true := by
  unfold gatherStep
  simp [h]

lemma gatherRun_halted_mono (delete_test : PostQualifier → Bool)
    (responses : Nat → Except ErrKind FeedPage) (m n : Nat) (hmn : m ≤ n)
    (h : (gatherRun delete_test responses m).halted = true) :
    (gatherRun delete_test responses n).halted = true := by
  induction n with
  | zero =>
    have : m = 0 := Nat.le_zero.mp hmn
    subst this
    exact h
  | succ n ih =>
    rcases Nat.lt_or_ge m (n + 1) with hlt | hge
    · exact gatherStep_halted _ _ _ (ih (Nat.lt_succ_iff.mp hlt))
    · have : m = n + 1 := Nat.le_antisymm hmn hge
      subst this
      exact h

lemma likesStep_halted (floorCursor : Option String) (page : LikesPage)
    (s : LikesState) (h : s.halted = true) :
    (likesStep floorCursor page s).halted = true := by
  unfold likesStep
  simp [h]

lemma likesRun_halted_mono (floorCursor : Option String)
    (pages : Nat → LikesPage) (m n : Nat) (hmn : m ≤ n)
    (h : (likesRun floorCursor pages m).halted = true) :
    (likesRun floorCursor pages n).halted = true := by
  induction n with
  | zero =>
    have : m = 0 := Nat.le_zero.mp hmn
    subst this
    exact h
  | succ n ih =>
    rcases Nat.lt_or_ge m (n + 1) with hlt | hge
    · exact likesStep_halted _ _ _ (ih (Nat.lt_succ_iff.mp hlt))
    · have : m = n + 1 := Nat.le_antisymm hmn hge
      subst this
      exact h

lemma ok_if_bool (b : Bool) :
    (if b then (Except.ok true : Except TsErr Bool) else .ok false) = .ok b := by
  cases b <;> rfl

/-! ## Concrete fixtures -/

/-- A viral, unembellished post: 10 reposts, parseable timestamp. -/
def viralSample : PostQualifier :=
  { uri := "at://did:plc:alice/app.bsky.feed.post/1"
    repost_count := 10
    created_at := some 0
    embed_external_uri := none }

/-- The uri of a post authored by the actor `did:plc:alice`. -/
def alicePostUri : String := "at://did:plc:alice/app.bsky.feed.post/2"

/-- A stale post (timestamp 0) the actor has self-liked. -/
def staleSelfLikedPost : PostQualifier :=
  { uri := alicePostUri
    repost_count := 0
    created_at := some 0
    embed_external_uri := none }

/-- The actor's like record on their own post. -/
def aliceSelfLike : LikeRecord :=
  { subject_uri := alicePostUri, subject_cid := "bafycid2" }

/-- A stale post authored by another account. -/
def bobPost : PostQualifier :=
  { uri := "at://did:plc:bob/app.bsky.feed.post/9"
    repost_count := 0
    created_at := some 0
    embed_external_uri := none }

/-- A hugely reposted post linking to a protected domain. -/
def protectedPost : PostQualifier :=
  { uri := "at://did:plc:alice/app.bsky.feed.post/4"
    repost_count := 9999
    created_at := some 0
    embed_external_uri := some "https://news.example.com/a" }

/-- A post whose `record.created_at` string dateutil cannot parse. -/
def badTimestampPost : PostQualifier :=
  { uri := "at://did:plc:alice/app.bsky.feed.post/3"
    repost_count := 0
    created_at := none
    embed_external_uri := none }

/-! ## Claims -/

/-- C1: for every content item, thresholds, current time, and self-like set
(whenever the item's timestamp parses, so that the decision is a boolean at
all), `to_delete` equals the spec formula
`(is_viral ∨ is_stale) ∧ ¬is_protected_domain ∧ ¬is_self_liked`; and the
scenario item with `repost_count = 10`, `viral_threshold = 5`, no external
embed and no self-like is decided as delete. -/
theorem c1_to_delete_matches_spec :
    (∀ (viral_threshold stale_threshold : Nat)
       (domains_to_protect : List String) (now : Int)
       (self_likes : List LikeRecord) (post : PostQualifier) (t : Int),
       post.created_at = some t →
       post.to_delete viral_threshold stale_threshold domains_to_protect now
           self_likes
         = .ok (should_delete_spec viral_threshold stale_threshold
                 domains_to_protect now self_likes post)) ∧
    viralSample.to_delete 5 0 [] 0 [] = .ok true := by
  constructor
  · intro vt st domains now sl post t hparse
    unfold PostQualifier.to_delete should_delete_spec
    cases hv : post.is_viral vt with
    | false =>
      simp only [hv, Bool.false_eq_true, if_false,
        is_stale_eq_ok st now post t hparse, ok_if_bool]
      simp
    | true =>
      simp only [hv, if_true, ok_if_bool]
      simp
  · rfl

/-- Witness for C1 at a concrete input. -/
theorem c1_witness :
    PostQualifier.to_delete 5 7 ["news.example.com"] 0 [] viralSample
      = .ok (should_delete_spec 5 7 ["news.example.com"] 0 [] viralSample) :=
  c1_to_delete_matches_spec.1 5 7 ["news.example.com"] 0 [] viralSample 0 rfl

/-- C3: whenever `is_protected_domain` or `is_self_liked` holds, any
boolean that `to_delete` returns is `false`, regardless of the viral and
stale flags. -/
theorem c3_protection_selflike_dominance :
    ∀ (viral_threshold stale_threshold : Nat)
      (domains_to_protect : List String) (now : Int)
      (self_likes : List LikeRecord) (post : PostQualifier) (b : Bool),
      (post.is_protected_domain domains_to_protect = true ∨
        post.is_self_liked self_likes = true) →
      post.to_delete viral_threshold stale_threshold domains_to_protect now
          self_likes = .ok b →
      b = false := by
  intro vt st domains now sl post b hdom hok
  unfold PostQualifier.to_delete at hok
  cases htr : (if post.is_viral vt then .ok true
               else post.is_stale st now : Except TsErr Bool) with
  | error e =>
    rw [htr] at hok
    exact absurd hok (by simp)
  | ok trigger =>
    rw [htr] at hok
    cases b with
    | false => rfl
    | true =>
      rcases hdom with hd | hd
      · simp [hd] at hok
      · simp [hd] at hok

/-- Witness for C3 at a concrete input: a hugely viral post on a protected
domain is not deleted. -/
theorem c3_witness : (false : Bool) = false :=
  c3_protection_selflike_dominance 1 0 ["news.example.com"] 0 []
    protectedPost false (Or.inl (by decide)) rfl

/-- C4: a viral threshold of `0` makes `is_viral` false and a staleness
threshold of `0` makes `is_stale` return false, for every item and time. -/
theorem c4_zero_thresholds_disable :
    ∀ (post : PostQualifier) (now : Int),
      post.is_viral 0 = false ∧ post.is_stale 0 now = .ok false := by
  intro post now
  exact ⟨rfl, rfl⟩

/-- C2 counterexample: on a stale post the actor has self-liked, the
code's unlike predicate `to_remove` answers true while the claimed formula
`is_stale ∧ ¬is_self_liked` is false — the predicate itself never consults
the self-like set. -/
theorem c2_counterexample :
    staleSelfLikedPost.to_remove 1 86400 = .ok true ∧
    should_unlike_spec 1 86400 [aliceSelfLike] staleSelfLikedPost = false := by
  exact ⟨rfl, by decide⟩

/-- C2 as amended: `to_remove` checks staleness only; self-like exclusion
is enforced upstream, since `gather_likes` feeds the predicate only likes
whose subject uri does not contain the actor's did, and on such posts
`is_self_liked` over the archive-derived self-like set is always false —
so on every post the pipeline can feed it, the unlike decision still
equals `is_stale ∧ ¬is_self_liked`; virality and domain protection play
no role. -/
theorem c2_to_remove_amended :
    ∀ (stale_threshold : Nat) (now : Int) (did : String)
      (resolves : String → Bool) (likes : List LikeRecord)
      (post : PostQualifier) (t : Int),
      post.created_at = some t →
      strIn did post.uri = false →
      post.to_remove stale_threshold now
        = .ok (should_unlike_spec stale_threshold now
                (selfLikesOf did resolves likes) post) := by
  intro st now did resolves likes post t hparse hnotin
  unfold PostQualifier.to_remove should_unlike_spec
  rw [is_self_liked_of_not_in did resolves likes post hnotin,
    is_stale_eq_ok st now post t hparse]
  simp

/-- Witness for the amended C2 at a concrete input. -/
theorem c2_witness :
    bobPost.to_remove 1 86400
      = .ok (should_unlike_spec 1 86400
              (selfLikesOf "did:plc:alice" (fun _ => true) [aliceSelfLike])
              bobPost) :=
  c2_to_remove_amended 1 86400 "did:plc:alice" (fun _ => true) [aliceSelfLike]
    bobPost 0 rfl (by decide)

/-- C9 counterexample: with a staleness threshold of `0`, `is_stale`
returns the boolean `false` on a post whose timestamp cannot be parsed —
the threshold test short-circuits before any parsing, so the claim's
"always raises" is false. -/
theorem c9_counterexample :
    badTimestampPost.created_at = none ∧
    badTimestampPost.is_stale 0 12345 = .ok false :=
  ⟨rfl, rfl⟩

/-- C9 as amended: whenever the staleness threshold is nonzero, `is_stale`
on an item with an unparseable timestamp raises `MalformedTimestamp`
rather than returning a boolean; with threshold `0` it returns false
without attempting to parse. -/
theorem c9_is_stale_amended :
    ∀ (stale_threshold : Nat) (now : Int) (post : PostQualifier),
      stale_threshold ≠ 0 → post.created_at = none →
      post.is_stale stale_threshold now = .error .malformedTimestamp := by
  intro st now post h0 hca
  unfold PostQualifier.is_stale
  simp [h0, hca]

/-- Witness for the amended C9 at a concrete input. -/
theorem c9_witness :
    badTimestampPost.is_stale 30 12345 = .error .malformedTimestamp :=
  c9_is_stale_amended 30 12345 badTimestampPost (by decide) rfl

/-- C5: if the response stream of `get_author_feed` eventually returns a
page whose cursor is empty/null (response `i`), the own-posts while-loop
has exited by iteration `i + 1` and stays exited — in particular it does
not spin forever re-requesting a cursor that failed on earlier
iterations. -/
theorem c5_gather_posts_terminates :
    ∀ (delete_test : PostQualifier → Bool)
      (responses : Nat → Except ErrKind FeedPage) (i : Nat) (page : FeedPage),
      responses i = .ok page → page.cursor = none →
      ∀ n, i + 1 ≤ n → (gatherRun delete_test responses n).halted = true := by
  intro dt res i page hres hcur n hn
  apply gatherRun_halted_mono dt res (i + 1) n hn
  by_cases hh : (gatherRun dt res i).halted = true
  · exact gatherStep_halted dt (res i) _ hh
  · have hh' : (gatherRun dt res i).halted = false := by
      cases hhal : (gatherRun dt res i).halted with
      | false => rfl
      | true => exact absurd hhal hh
    rw [show gatherRun dt res (i + 1)
          = gatherStep dt (res i) (gatherRun dt res i) from rfl]
    unfold gatherStep
    simp [hh', hres, hcur]

/-- Witness for C5 at a concrete input: an oracle whose first page already
carries an empty cursor halts the loop after one iteration, even though a
later request fails. -/
theorem c5_witness :
    (gatherRun (fun _ => false)
      (fun j => if j = 0 then .ok { posts := [], cursor := none }
                else .error .http) 1).halted = true :=
  c5_gather_posts_terminates (fun _ => false)
    (fun j => if j = 0 then .ok { posts := [], cursor := none }
              else .error .http)
    0 { posts := [], cursor := none } rfl rfl 1 (by decide)

/-- C6 (spec-modelled, see `likesStop`): when a floor cursor is configured
for the likes flow, the pagination stops as soon as a newly returned
cursor compares less than the floor — if the page consumed at any
iteration `i` returns such a cursor, the loop is halted at every iteration
count from `i + 1` on — and if the very first returned cursor trips the
floor check, the loop halts after exactly one iteration. -/
theorem c6_likes_floor_stops :
    (∀ (floorCursor : String) (pages : Nat → LikesPage) (i : Nat) (c : String),
       (pages i).cursor = some c →
       lexLt c.data floorCursor.data = true →
       ∀ n, i + 1 ≤ n → (likesRun (some floorCursor) pages n).halted = true) ∧
    (∀ (floorCursor : String) (pages : Nat → LikesPage) (c : String),
       (pages 0).cursor = some c →
       lexLt c.data floorCursor.data = true →
       (likesRun (some floorCursor) pages 1).halted = true ∧
       (likesRun (some floorCursor) pages 1).pages = 1) := by
  constructor
  · intro f pages i c hc hlt n hn
    apply likesRun_halted_mono (some f) pages (i + 1) n hn
    by_cases hh : (likesRun (some f) pages i).halted = true
    · exact likesStep_halted _ _ _ hh
    · have hh' : (likesRun (some f) pages i).halted = false := by
        cases hhal : (likesRun (some f) pages i).halted with
        | false => rfl
        | true => exact absurd hhal hh
      rw [show likesRun (some f) pages (i + 1)
            = likesStep (some f) (pages i) (likesRun (some f) pages i) from rfl]
      unfold likesStep likesStop
      simp [hh', hc, hlt]
  · intro f pages c hc hlt
    rw [show likesRun (some f) pages 1
          = likesStep (some f) (pages 0) (likesRun (some f) pages 0) from rfl]
    unfold likesStep likesStop
    simp [likesRun, hc, hlt]

/-- Witness for C6 at concrete inputs: an oracle whose cursor first stays
above the floor and drops below it on the page consumed at iteration 2
is halted by iteration 3, and an oracle whose very first cursor trips the
floor halts after exactly one iteration. -/
theorem c6_witness :
    (likesRun (some "m")
      (fun j => if j = 2 then { items := [], cursor := some "a" }
                else { items := [], cursor := some "z" }) 3).halted = true ∧
    ((likesRun (some "m") (fun _ => { items := [], cursor := some "a" }) 1).halted
        = true ∧
     (likesRun (some "m") (fun _ => { items := [], cursor := some "a" }) 1).pages
        = 1) :=
  ⟨c6_likes_floor_stops.1 "m"
      (fun j => if j = 2 then { items := [], cursor := some "a" }
                else { items := [], cursor := some "z" })
      2 "a" rfl (by decide) 3 (by decide),
   c6_likes_floor_stops.2 "m"
      (fun _ => { items := [], cursor := some "a" }) "a" rfl (by decide)⟩

/-- C7: for every list and positive chunk size, `chunker` cuts the list
into consecutive chunks of length at most the size whose concatenation is
the original list (so each record appears in exactly one chunk, in order);
and any list of 30 records chunked at the API ceiling of 25 yields exactly
2 chunks, i.e. 2 detail-resolution calls. -/
theorem c7_chunker_partitions :
    (∀ (α : Type) (seq : List α) (size : Nat), 0 < size →
       (∀ c ∈ chunker seq size, c.length ≤ size) ∧
       (chunker seq size).flatten = seq) ∧
    (∀ (α : Type) (seq : List α), seq.length = 30 →
       (chunker seq 25).length = 2) := by
  constructor
  · intro α seq size h
    exact ⟨fun c hc => chunker_length_le seq size c hc,
      chunker_flatten size h seq⟩
  · intro α seq hlen
    rw [chunker_length, hlen]

/-- Witness for C7 at a concrete input: a 30-element list. -/
theorem c7_witness :
    ((chunker (List.range 30) 25).flatten = List.range 30) ∧
    (chunker (List.range 30) 25).length = 2 :=
  ⟨(c7_chunker_partitions.1 Nat (List.range 30) 25 (by decide)).2,
   c7_chunker_partitions.2 Nat (List.range 30) (by decide)⟩

/-- C8 counterexample: in a two-item unlike batch whose first item fails
its primary call with an HTTP error and then fails the uri fallback with a
non-HTTP exception, `delete_like` re-raises (`raise e`), so only 1 of the
2 items is processed — the failure aborts the batch. -/
theorem c8_counterexample :
    batch_unlike_posts
        [(some ErrKind.http, some ErrKind.other), (none, none)]
      = (1, some ErrKind.other) ∧
    [(some ErrKind.http, some ErrKind.other),
      ((none : Option ErrKind), (none : Option ErrKind))].length = 2 :=
  ⟨rfl, rfl⟩

/-- C8 as amended: per-item failures during batch application are caught
and logged and the batch continues — for delete/unrepost this holds for
every failure, and for unlike it holds except in the one case where the
primary call fails with an HTTP error and the uri fallback then fails with
a non-HTTP exception, which `delete_like` re-raises, aborting the rest of
the unlike batch. -/
theorem c8_batch_amended :
    (∀ outcomes : List (Option ErrKind × Option ErrKind),
       (∀ o ∈ outcomes,
         ¬(o.1 = some ErrKind.http ∧ o.2 = some ErrKind.other)) →
       batch_unlike_posts outcomes = (outcomes.length, none)) ∧
    (∀ outcomes : List (Option ErrKind),
       batch_delete_posts outcomes = (outcomes.length, none)) := by
  constructor
  · intro outcomes h
    induction outcomes with
    | nil => rfl
    | cons o rest ih =>
      have ho := h o (List.mem_cons_self o rest)
      have hrest : ∀ x ∈ rest,
          ¬(x.1 = some ErrKind.http ∧ x.2 = some ErrKind.other) :=
        fun x hx => h x (List.mem_cons_of_mem o hx)
      have hok : delete_like o.1 o.2 = .ok () := by
        unfold delete_like
        cases h1 : o.1 with
        | none => rfl
        | some k =>
          cases k with
          | other => rfl
          | http =>
            cases h2 : o.2 with
            | none => rfl
            | some k2 =>
              cases k2 with
              | http => rfl
              | other => exact absurd ⟨h1, h2⟩ ho
      simp only [batch_unlike_posts, hok, ih hrest, List.length_cons]
  · intro outcomes
    induction outcomes with
    | nil => rfl
    | cons o rest ih =>
      simp only [batch_delete_posts, remove, ih, List.length_cons]

/-- Witness for the amended C8 at a concrete input: a three-item batch
with assorted caught failures is processed to the end. -/
theorem c8_witness :
    batch_unlike_posts
        [(some ErrKind.http, none), (some ErrKind.other, some ErrKind.other),
         (none, some ErrKind.other)]
      = (3, none) :=
  c8_batch_amended.1 _ (by decide)

/-- A like record by the actor on another account's post. -/
def bobLike : LikeRecord :=
  { subject_uri := "at://did:plc:bob/app.bsky.feed.post/9"
    subject_cid := "bafybob" }

/-- A concrete `client.get_posts` model obeying the client contract: it
returns `bobPost` exactly when its uri was requested. -/
def sampleClient (uris : List String) : Except ErrKind (List PostQualifier) :=
  .ok (if bobPost.uri ∈ uris then [bobPost] else [])

/-- C10: assuming the client contract that `get_posts` only returns posts
whose uri was requested, every post placed in `to_unlike` by
`gather_likes` has a uri that does not contain the actor's did — a
self-placed like on own content is never routed into the unlike set. -/
theorem c10_to_unlike_not_self :
    ∀ (getPosts : List String → Except ErrKind (List PostQualifier))
      (did : String) (stale_threshold : Nat) (now : Int)
      (likes : List LikeRecord),
      (∀ uris res, getPosts uris = .ok res → ∀ p ∈ res, p.uri ∈ uris) →
      ∀ p ∈ gather_likes_to_unlike getPosts did stale_threshold now likes,
        strIn did p.uri = false := by
  intro getPosts did st now likes hclient p hp
  unfold gather_likes_to_unlike at hp
  obtain ⟨batch, hbatch, hpb⟩ := mem_gather_foldr _ _ p hp
  unfold gatherLikesBatch at hpb
  split at hpb
  · exact absurd hpb (List.not_mem_nil p)
  · rename_i posts hgp
    split at hpb
    · exact absurd hpb (List.not_mem_nil p)
    · rename_i kept hfe
      have hpposts : p ∈ posts := filterExcept_subset _ posts kept hfe p hpb
      have huri : p.uri ∈ batch.map (fun x => x.subject_uri) :=
        hclient _ posts hgp p hpposts
      obtain ⟨x, hx, hxeq⟩ := List.mem_map.mp huri
      have hxother : x ∈ otherLikesOf did likes :=
        mem_of_mem_chunker _ 25 (by decide) batch hbatch x hx
      have hxfilt := (List.mem_filter.mp hxother).2
      rw [← hxeq]
      simpa using hxfilt

/-- Witness for C10 at a concrete input: the pipeline run on one self-like
and one like of another account's stale post yields `[bobPost]`, whose uri
does not contain the actor's did. -/
theorem c10_witness : strIn "did:plc:alice" bobPost.uri = false :=
  c10_to_unlike_not_self sampleClient "did:plc:alice" 1 86400
    [aliceSelfLike, bobLike]
    (by
      intro uris res h p hp
      unfold sampleClient at h
      by_cases hmem : bobPost.uri ∈ uris
      · rw [if_pos hmem] at h
        injection h with h
        subst h
        simp at hp
        subst hp
        exact hmem
      · rw [if_neg hmem] at h
        injection h with h
        subst h
        exact absurd hp (List.not_mem_nil p))
    bobPost (by decide)
